import Mathlib

/-!
Shallow embedding of the Simon-task device of `script/simon_device.py`
(classes `SimonStimulus`, `SimonTrial`, `SimonTask` and the module-level
function `stats_qc`), together with theorems settling the spec claims.

Modelling conventions:
* Python strings are `String`; the module-level tuples `SHAPES`, `LOCATIONS`,
  `CONDITIONS`, `CUE_CONDITIONS` are `List String`.
* The dicts `SIMON_MAPPINGS` / `RESPONSE_MAPPINGS` are association lists;
  `d[k]` is `List.lookup` (a `none` result corresponds to a `KeyError`).
* Python floats that the device manipulates (`onset`, `offset`, accuracies,
  response times, `valid_cue_percentage`) are modelled as `ℚ`; the only NaN
  the statistics code ever produces is the `np.nan` singleton, modelled by
  `Option ℚ` with `none` for `np.nan`.
* `int(x)` (truncation toward zero) is `pyInt`, Python 3 `round` (banker's
  rounding) is `pyRound`, and `lst * k` on lists is `pyRep` (empty for
  `k ≤ 0`).
* `random.shuffle` is modelled by an arbitrary function `shuf` on lists,
  quantified where needed together with the hypothesis that it permutes its
  argument (which is what a Fisher-Yates shuffle does for every RNG state).
-/

namespace SimonDevice

/-- `SHAPES = ("CIRCLE", "SQUARE")` (simon_device.py line 24). -/
def SHAPES : List String := ["CIRCLE", "SQUARE"]

/-- `LOCATIONS = ("LEFT", "RIGHT")` (line 25). -/
def LOCATIONS : List String := ["LEFT", "RIGHT"]

/-- `CONDITIONS = ("CONGRUENT", "INCONGRUENT")` (line 26). -/
def CONDITIONS : List String := ["CONGRUENT", "INCONGRUENT"]

/-- `CUE_CONDITIONS` (line 30). -/
def CUE_CONDITIONS : List String :=
  ["CONGRUENT-VALID", "CONGRUENT-INVALID", "INCONGRUENT-VALID", "INCONGRUENT-INVALID"]

/-- `SIMON_MAPPINGS = {"CIRCLE": "LEFT", "SQUARE": "RIGHT"}` (line 28). -/
def SIMON_MAPPINGS : List (String × String) := [("CIRCLE", "LEFT"), ("SQUARE", "RIGHT")]

/-- `RESPONSE_MAPPINGS = {"LEFT": "f", "RIGHT": "j"}` (line 29). -/
def RESPONSE_MAPPINGS : List (String × String) := [("LEFT", "f"), ("RIGHT", "j")]

/-- Dict access `SIMON_MAPPINGS[shape]`; `none` models a `KeyError`. -/
def simonMapping (shape : String) : Option String := SIMON_MAPPINGS.lookup shape

/-- Dict access `RESPONSE_MAPPINGS[loc]`; `none` models a `KeyError`. -/
def responseMapping (loc : String) : Option String := RESPONSE_MAPPINGS.lookup loc

/-- Python `int(q)`: truncation toward zero. -/
def pyInt (q : ℚ) : ℤ := if 0 ≤ q then ⌊q⌋ else ⌈q⌉

/-- Python 3 `round(q)`: round half to even (banker's rounding). -/
def pyRound (q : ℚ) : ℤ :=
  let f := ⌊q⌋
  let r := q - (f : ℚ)
  if r < 1/2 then f
  else if 1/2 < r then f + 1
  else if f % 2 = 0 then f else f + 1

/-- Python list replication `l * k`: empty for `k ≤ 0`, else `k` copies. -/
def pyRep {α : Type} (l : List α) (k : ℤ) : List α := (List.replicate k.toNat l).flatten

/-- The class `SimonStimulus` (lines 35-66): fields `shape`, `location`, `cue`. -/
structure SimonStimulus where
  shape : String
  location : String
  cue : String
deriving DecidableEq, Repr

/-- The constructor `SimonStimulus.__init__` (lines 38-42): the `assert`
`shape in SHAPES and location in LOCATIONS and cue in LOCATIONS` is modelled
by returning `none` (an `AssertionError`) when it fails. -/
def mkSimonStimulus (shape location cue : String) : Option SimonStimulus :=
  if shape ∈ SHAPES ∧ location ∈ LOCATIONS ∧ cue ∈ LOCATIONS then
    some ⟨shape, location, cue⟩
  else
    none

namespace SimonStimulus

/-- Property `congruent` (lines 68-73): `SIMON_MAPPINGS[self.shape] == self.location`. -/
def congruent (st : SimonStimulus) : Bool := simonMapping st.shape == some st.location

/-- Property `incongruent` (lines 75-80): `SIMON_MAPPINGS[self.shape] != self.location`. -/
def incongruent (st : SimonStimulus) : Bool := simonMapping st.shape != some st.location

/-- Property `valid` (lines 82-87): `SIMON_MAPPINGS[self.shape] == self.cue`. -/
def valid (st : SimonStimulus) : Bool := simonMapping st.shape == some st.cue

/-- Property `invalid` (lines 89-94): `SIMON_MAPPINGS[self.shape] != self.cue`. -/
def invalid (st : SimonStimulus) : Bool := simonMapping st.shape != some st.cue

/-- Property `kind` (lines 96-104): `""`, then `"congruent"` if congruent,
elif incongruent `"incongruent"`. -/
def kind (st : SimonStimulus) : String :=
  if st.congruent then "congruent" else if st.incongruent then "incongruent" else ""

/-- Property `cue_kind` (lines 106-114). -/
def cue_kind (st : SimonStimulus) : String :=
  if st.valid then "valid" else if st.invalid then "invalid" else ""

end SimonStimulus

/-- The class `SimonTrial` (lines 122-159): `__init__` + `setup` copy the
stimulus attributes and initialize `onset = offset = 0.0`, `response = None`.
The ACT-R trace fields (`utility_trace`, `cost_trace`, `chunk_trace`) hold
opaque data read back from the external ACT-R engine and are not modelled. -/
structure SimonTrial where
  stimulus : SimonStimulus
  shape : String
  location : String
  cue : String
  onset : ℚ
  offset : ℚ
  response : Option String
deriving DecidableEq, Repr

/-- `SimonTrial(stimulus)` (lines 125-141). -/
def mkSimonTrial (st : SimonStimulus) : SimonTrial :=
  ⟨st, st.shape, st.location, st.cue, 0, 0, none⟩

namespace SimonTrial

/-- Property `correct_response` (lines 145-147):
`RESPONSE_MAPPINGS[SIMON_MAPPINGS[self.shape]]` (the chained dict lookups). -/
def correct_response (t : SimonTrial) : Option String :=
  (simonMapping t.shape).bind responseMapping

/-- Property `accuracy` (lines 149-155): `1.0` if `self.response is not None
and self.response == self.correct_response` else `0.0`.  (When `response` is
`None` Python short-circuits before evaluating `correct_response`, so the
lookups are only reached on the `isSome` side, where trials built by the task
always have a shape in `SHAPES`.) -/
def accuracy (t : SimonTrial) : ℚ :=
  if t.response.isSome && (t.response == t.correct_response) then 1 else 0

/-- Property `response_time` (lines 157-159): `self.offset - self.onset`. -/
def response_time (t : SimonTrial) : ℚ := t.offset - t.onset

end SimonTrial

/-- The condition templates of `SimonTask.generate_stimuli` (lines 332-335):
`congr_valid` template (line 332). -/
def congr_valid : List (String × String × String) :=
  [("CIRCLE", "LEFT", "LEFT"), ("SQUARE", "RIGHT", "RIGHT")]

/-- `incongr_valid` template (line 333). -/
def incongr_valid : List (String × String × String) :=
  [("CIRCLE", "RIGHT", "LEFT"), ("SQUARE", "LEFT", "RIGHT")]

/-- `congr_invalid` template (line 334). -/
def congr_invalid : List (String × String × String) :=
  [("CIRCLE", "LEFT", "RIGHT"), ("SQUARE", "RIGHT", "LEFT")]

/-- `incongr_invalid` template (line 335). -/
def incongr_invalid : List (String × String × String) :=
  [("CIRCLE", "RIGHT", "RIGHT"), ("SQUARE", "LEFT", "LEFT")]

/-- The list arithmetic of `SimonTask.generate_stimuli` (lines 337-341),
before the optional shuffle and the `SimonStimulus` construction:
`congr_valid * int(n*p) + incongr_valid * int(n*p)
 + congr_invalid * int(n*(1-p)) + incongr_invalid * int(n*(1-p))`. -/
def generateStimuliList (n : ℤ) (p : ℚ) : List (String × String × String) :=
  let valid := pyRep congr_valid (pyInt ((n : ℚ) * p)) ++
    pyRep incongr_valid (pyInt ((n : ℚ) * p))
  let invalid := pyRep congr_invalid (pyInt ((n : ℚ) * (1 - p))) ++
    pyRep incongr_invalid (pyInt ((n : ℚ) * (1 - p)))
  valid ++ invalid

/-- The body of the comprehension at line 346:
`SimonStimulus(shape=x[0], location=x[1], cue=x[2])`. -/
def tupStim (x : String × String × String) : SimonStimulus := ⟨x.1, x.2.1, x.2.2⟩

/-- `SimonTask.generate_stimuli(shuffle, n_trials, valid_cue_percentage)`
(lines 330-346).  `shuf` stands for the permutation `random.shuffle` applies
for the current RNG state.  The final comprehension builds the stimuli (the
constructor's `assert` provably succeeds on every generated tuple, see
`generateStimuliE_eq_some`). -/
def generateStimuli (shuffle : Bool)
    (shuf : List (String × String × String) → List (String × String × String))
    (n : ℤ) (p : ℚ) : List SimonStimulus :=
  let lst := generateStimuliList n p
  let lst := if shuffle then shuf lst else lst
  lst.map tupStim

/-- `SimonTask.generate_stimuli` with the constructor `assert` made explicit:
`none` models an uncaught exception in the list comprehension at line 346. -/
def generateStimuliE (shuffle : Bool)
    (shuf : List (String × String × String) → List (String × String × String))
    (n : ℤ) (p : ℚ) : Option (List SimonStimulus) :=
  let lst := generateStimuliList n p
  let lst := if shuffle then shuf lst else lst
  lst.mapM fun x => mkSimonStimulus x.1 x.2.1 x.2.2

/-- The phase strings `"fixation"`, `"cue"`, `"stimulus"`, `"done"` that
`SimonTask.phase` takes.  `update_window` (lines 451-523) dispatches on the
ACT-R goal step (`None` / `"ATTEND-CUE"` / `"ATTEND-STIMULUS"`), which under
correct driving coincides with the phase variable, as the commented-out
`elif self.phase == ...` conditions of the source record. -/
inductive Phase where
  | fixation
  | cue
  | stimulus
  | done
deriving DecidableEq, Repr

/-- The mutable run state of `SimonTask` that `setup`, `update_window` and
`accept_response` touch: `phase`, `index`, `log` and `current_trial`.
The window handle, ACT-R parameters and the production/reward traces are
external-engine bookkeeping and are not modelled. -/
structure TaskState where
  phase : Phase
  index : ℕ
  log : List SimonTrial
  current : SimonTrial
deriving DecidableEq, Repr

/-- `SimonTask.setup` (lines 234-246): `index = 0`, `log = []`,
`phase = "fixation"`, `current_trial = SimonTrial(self.stimuli[0])`
(which needs a nonempty stimulus list, hence the hypothesis). -/
def setupState (stimuli : List SimonStimulus) (h : stimuli ≠ []) : TaskState :=
  ⟨Phase.fixation, 0, [], mkSimonTrial (stimuli.head h)⟩

/-- One phase transition of `SimonTask.update_window` (lines 451-523).  The
source function recurses until `phase == "done"`; each recursive call runs one
of the branches modelled here:
* `done` branch (453-455): render only, no state change;
* fixation branch (457-468): schedules motivation + fixation rendering, then
  `phase = "cue"`;
* cue branch (470-475): schedules cue rendering, then `phase = "stimulus"`;
* stimulus branch (477-523): records onset, renders, records ACT-R traces
  (external reads, not modelled), then `index += 1`,
  `log.append(current_trial)`, and either `phase = "done"` (when
  `index >= len(stimuli)`) or `current_trial = SimonTrial(stimuli[index])`
  with `phase = "fixation"`.
The trial's `onset`/`offset`/`response` fields are written from the simulated
ACT-R clock and the `accept_response` callback, which are orthogonal to the
phase/index/log bookkeeping this step captures. -/
def updateWindowStep (stimuli : List SimonStimulus) (s : TaskState) : TaskState :=
  match s.phase with
  | Phase.done => s
  | Phase.fixation => { s with phase := Phase.cue }
  | Phase.cue => { s with phase := Phase.stimulus }
  | Phase.stimulus =>
      let idx := s.index + 1
      let log := s.log ++ [s.current]
      if h : idx < stimuli.length then
        ⟨Phase.fixation, idx, log, mkSimonTrial stimuli[idx]⟩
      else
        ⟨Phase.done, idx, log, s.current⟩

/-- `SimonTask.accept_response(model, response)` (lines 528-534): only when
`self.phase == "stimulus"` it sets `current_trial.response = response` and
`current_trial.offset = actr.mp_time()`; `now` stands for that clock value.
The `model` argument is unused by the body and omitted. -/
def acceptResponse (s : TaskState) (response : String) (now : ℚ) : TaskState :=
  if s.phase = Phase.stimulus then
    { s with current := { s.current with response := some response, offset := now } }
  else
    s

/-- The four cue conditions of `run_stats`, i.e. the keys `CUE_CONDITIONS`. -/
inductive CueCond where
  | congruentValid
  | congruentInvalid
  | incongruentValid
  | incongruentInvalid
deriving DecidableEq, Repr

/-- The filter predicates of `run_stats` (lines 665-668), e.g.
`x.stimulus.congruent & x.stimulus.valid` (bitwise `&` on two bools). -/
def condPred (c : CueCond) (t : SimonTrial) : Bool :=
  match c with
  | CueCond.congruentValid => t.stimulus.congruent && t.stimulus.valid
  | CueCond.congruentInvalid => t.stimulus.congruent && t.stimulus.invalid
  | CueCond.incongruentValid => t.stimulus.incongruent && t.stimulus.valid
  | CueCond.incongruentInvalid => t.stimulus.incongruent && t.stimulus.invalid

/-- `SimonTask.run_stats` (lines 655-678) as the resulting mapping from each
cue condition to its triple.  `R` starts as `{cond: (0, np.nan, np.nan)}`;
when the log is nonempty, each condition whose filtered sublist `data` is
nonempty is overwritten with `(len(data), sum(accuracy)/len, sum(rt)/len)`
(`np.nan` is modelled by `none`, a computed float by `some`). -/
def runStats (log : List SimonTrial) (c : CueCond) : ℕ × Option ℚ × Option ℚ :=
  if 0 < log.length then
    let data := log.filter (condPred c)
    if 0 < data.length then
      (data.length,
       some ((data.map SimonTrial.accuracy).sum / (data.length : ℚ)),
       some ((data.map SimonTrial.response_time).sum / (data.length : ℚ)))
    else (0, none, none)
  else (0, none, none)

/-- A Python value appearing in `stats_qc`'s `allvalues` list: the trial
count (an `int`, never `np.nan`), a computed float (never the `np.nan`
singleton, which is what `x is not np.nan` tests), or `np.nan` itself. -/
inductive PyVal where
  | int (n : ℕ)
  | float (q : ℚ)
  | nan
deriving DecidableEq, Repr

/-- The test `x is not np.nan` of line 900. -/
def PyVal.isNotNan (v : PyVal) : Bool :=
  match v with
  | PyVal.nan => false
  | _ => true

/-- `list(stats[condition])` (line 898): the triple as a 3-element list. -/
def pyListVals (s : ℕ × Option ℚ × Option ℚ) : List PyVal :=
  [PyVal.int s.1,
   (match s.2.1 with | none => PyVal.nan | some q => PyVal.float q),
   (match s.2.2 with | none => PyVal.nan | some q => PyVal.float q)]

/-- The module-level `stats_qc(stats)` (lines 880-907).  The argument dict is
modelled as an association list (`len(stats)` is its length, `stats[k]` is
`List.lookup`, `Except.error ()` an uncaught `KeyError`).  The number-check
`stats[condition][0] is not expected` uses `is` on small interned ints, i.e.
equality with 20.  When the counts pass, `allvalues` is the 6 values of the
two `CONDITIONS` entries and the function returns whether exactly 9 of them
are not `np.nan`. -/
def statsQC (stats : List (String × (ℕ × Option ℚ × Option ℚ))) : Except Unit Bool :=
  if stats.length = 3 then
    match stats.lookup "CONGRUENT", stats.lookup "INCONGRUENT" with
    | some c, some i =>
        if c.1 = 20 ∧ i.1 = 20 then
          let allvalues := pyListVals c ++ pyListVals i
          if (allvalues.filter PyVal.isNotNan).length = 9 then
            Except.ok true
          else
            Except.ok false
        else
          Except.ok false
    | _, _ => Except.error ()
  else
    Except.ok false

/-- A stimulus sequence used to instantiate universally quantified theorems
on a concrete input. -/
def demoStimuli : List SimonStimulus :=
  [⟨"CIRCLE", "LEFT", "LEFT"⟩, ⟨"SQUARE", "LEFT", "RIGHT"⟩]

/-- A freshly constructed trial on a congruent-valid stimulus. -/
def demoTrial : SimonTrial := mkSimonTrial ⟨"CIRCLE", "LEFT", "LEFT"⟩

/-- A task state sitting in the fixation phase. -/
def demoFixState : TaskState := ⟨Phase.fixation, 0, [], demoTrial⟩

/-- A task state sitting in the stimulus phase. -/
def demoStimState : TaskState := ⟨Phase.stimulus, 0, [], demoTrial⟩

/-- An aggregated stats mapping with the full cue-condition key set, the
expected 20 trials per condition and no NaN anywhere. -/
def goodStats : List (String × (ℕ × Option ℚ × Option ℚ)) :=
  [("CONGRUENT-VALID", (20, some 1, some 1)),
   ("CONGRUENT-INVALID", (20, some 1, some 1)),
   ("INCONGRUENT-VALID", (20, some 1, some 1)),
   ("INCONGRUENT-INVALID", (20, some 1, some 1))]

/-! ### Supporting lemmas -/

/-- Counting in a Python list replication. -/
lemma countP_pyRep {α : Type} (l : List α) (k : ℤ) (q : α → Bool) :
    (pyRep l k).countP q = k.toNat * l.countP q := by
  unfold pyRep
  rw [List.countP_flatten, List.map_replicate]
  simp [List.sum_replicate]

/-- Length of a Python list replication. -/
lemma length_pyRep {α : Type} (l : List α) (k : ℤ) :
    (pyRep l k).length = k.toNat * l.length := by
  unfold pyRep
  simp [List.length_flatten, List.map_replicate, List.sum_replicate]

/-- Counting in an unshuffled generated sequence, template by template. -/
lemma countP_generateStimuli (n : ℤ) (p : ℚ) (q : SimonStimulus → Bool) :
    (generateStimuli false id n p).countP q =
      (pyInt ((n : ℚ) * p)).toNat *
        (congr_valid.countP (fun x => q (tupStim x)) +
         incongr_valid.countP (fun x => q (tupStim x))) +
      (pyInt ((n : ℚ) * (1 - p))).toNat *
        (congr_invalid.countP (fun x => q (tupStim x)) +
         incongr_invalid.countP (fun x => q (tupStim x))) := by
  unfold generateStimuli generateStimuliList
  simp only [if_neg Bool.false_ne_true, id]
  rw [List.countP_map]
  simp only [Function.comp_def, List.countP_append, countP_pyRep]
  ring

/-- Length of an unshuffled generated sequence. -/
lemma length_generateStimuli (n : ℤ) (p : ℚ) :
    (generateStimuli false id n p).length =
      (pyInt ((n : ℚ) * p)).toNat * 2 + (pyInt ((n : ℚ) * p)).toNat * 2 +
      ((pyInt ((n : ℚ) * (1 - p))).toNat * 2 + (pyInt ((n : ℚ) * (1 - p))).toNat * 2) := by
  unfold generateStimuli generateStimuliList
  simp only [if_neg Bool.false_ne_true, id]
  rw [List.length_map]
  simp only [List.length_append, length_pyRep]
  rfl

/-! ### C1: per-condition counts of `generate_stimuli` -/

/-- C1 (amended): for every `n_trials ≥ 0` and `valid_cue_percentage` in
`{0, 0.25, 0.5, 0.75, 1}`, the sequence returned by
`generate_stimuli(shuffle=False, n_trials, p)` has per-condition counts
`2 * floor(n_trials * p)` for each valid condition and
`2 * floor(n_trials * (1-p))` for each invalid condition (each template is
replicated `int(n_trials * p)` resp. `int(n_trials * (1-p))` times and itself
contains two stimuli of its condition), and the total length is the sum of
the four counts. -/
theorem generate_stimuli_counts (n : ℕ) (p : ℚ)
    (hp : p = 0 ∨ p = 1/4 ∨ p = 1/2 ∨ p = 3/4 ∨ p = 1) :
    ((generateStimuli false id (n : ℤ) p).countP
        (fun st => st.congruent && st.valid) = 2 * (⌊(n : ℚ) * p⌋).toNat)
  ∧ ((generateStimuli false id (n : ℤ) p).countP
        (fun st => st.incongruent && st.valid) = 2 * (⌊(n : ℚ) * p⌋).toNat)
  ∧ ((generateStimuli false id (n : ℤ) p).countP
        (fun st => st.congruent && st.invalid) = 2 * (⌊(n : ℚ) * (1 - p)⌋).toNat)
  ∧ ((generateStimuli false id (n : ℤ) p).countP
        (fun st => st.incongruent && st.invalid) = 2 * (⌊(n : ℚ) * (1 - p)⌋).toNat)
  ∧ ((generateStimuli false id (n : ℤ) p).length =
        2 * (⌊(n : ℚ) * p⌋).toNat + 2 * (⌊(n : ℚ) * p⌋).toNat +
        (2 * (⌊(n : ℚ) * (1 - p)⌋).toNat + 2 * (⌊(n : ℚ) * (1 - p)⌋).toNat)) := by
  have hp0 : 0 ≤ p := by rcases hp with h | h | h | h | h <;> subst h <;> norm_num
  have hp1 : p ≤ 1 := by rcases hp with h | h | h | h | h <;> subst h <;> norm_num
  have hcast : (((n : ℤ) : ℚ)) = (n : ℚ) := by push_cast; ring
  have hv : pyInt (((n : ℤ) : ℚ) * p) = ⌊(n : ℚ) * p⌋ := by
    rw [hcast]; exact if_pos (mul_nonneg (by positivity) hp0)
  have hi : pyInt (((n : ℤ) : ℚ) * (1 - p)) = ⌊(n : ℚ) * (1 - p)⌋ := by
    rw [hcast]; exact if_pos (mul_nonneg (by positivity) (by linarith))
  refine ⟨?_, ?_, ?_, ?_, ?_⟩
  · rw [countP_generateStimuli, hv, hi]
    have e1 : congr_valid.countP
        (fun x => (tupStim x).congruent && (tupStim x).valid) = 2 := by decide
    have e2 : incongr_valid.countP
        (fun x => (tupStim x).congruent && (tupStim x).valid) = 0 := by decide
    have e3 : congr_invalid.countP
        (fun x => (tupStim x).congruent && (tupStim x).valid) = 0 := by decide
    have e4 : incongr_invalid.countP
        (fun x => (tupStim x).congruent && (tupStim x).valid) = 0 := by decide
    simp only [e1, e2, e3, e4]
    ring
  · rw [countP_generateStimuli, hv, hi]
    have e1 : congr_valid.countP
        (fun x => (tupStim x).incongruent && (tupStim x).valid) = 0 := by decide
    have e2 : incongr_valid.countP
        (fun x => (tupStim x).incongruent && (tupStim x).valid) = 2 := by decide
    have e3 : congr_invalid.countP
        (fun x => (tupStim x).incongruent && (tupStim x).valid) = 0 := by decide
    have e4 : incongr_invalid.countP
        (fun x => (tupStim x).incongruent && (tupStim x).valid) = 0 := by decide
    simp only [e1, e2, e3, e4]
    ring
  · rw [countP_generateStimuli, hv, hi]
    have e1 : congr_valid.countP
        (fun x => (tupStim x).congruent && (tupStim x).invalid) = 0 := by decide
    have e2 : incongr_valid.countP
        (fun x => (tupStim x).congruent && (tupStim x).invalid) = 0 := by decide
    have e3 : congr_invalid.countP
        (fun x => (tupStim x).congruent && (tupStim x).invalid) = 2 := by decide
    have e4 : incongr_invalid.countP
        (fun x => (tupStim x).congruent && (tupStim x).invalid) = 0 := by decide
    simp only [e1, e2, e3, e4]
    ring
  · rw [countP_generateStimuli, hv, hi]
    have e1 : congr_valid.countP
        (fun x => (tupStim x).incongruent && (tupStim x).invalid) = 0 := by decide
    have e2 : incongr_valid.countP
        (fun x => (tupStim x).incongruent && (tupStim x).invalid) = 0 := by decide
    have e3 : congr_invalid.countP
        (fun x => (tupStim x).incongruent && (tupStim x).invalid) = 0 := by decide
    have e4 : incongr_invalid.countP
        (fun x => (tupStim x).incongruent && (tupStim x).invalid) = 2 := by decide
    simp only [e1, e2, e3, e4]
    ring
  · rw [length_generateStimuli, hv, hi]
    ring

/-- C1 witness: the amended count statement instantiated at `n_trials = 20`,
`valid_cue_percentage = 1/2`. -/
theorem generate_stimuli_counts_witness :
    (generateStimuli false id ((20 : ℕ) : ℤ) (1/2)).countP
        (fun st => st.congruent && st.valid) = 2 * (⌊((20 : ℕ) : ℚ) * (1/2)⌋).toNat :=
  (generate_stimuli_counts 20 (1/2) (by norm_num)).1

/-- C1 counterexample: at the source defaults `n_trials = 20`,
`valid_cue_percentage = 0.5`, the congruent-valid count of the generated
sequence is `20`, while the claim predicts `round(20 * 0.5) = 10`. -/
theorem generate_stimuli_counts_cex :
    ((generateStimuli false id 20 (1/2)).countP
        (fun st => st.congruent && st.valid) = 20)
  ∧ pyRound ((20 : ℚ) * (1/2)) = 10
  ∧ (20 : ℕ) ≠ 10 := by
  refine ⟨?_, ?_, by decide⟩
  · rw [countP_generateStimuli]
    have hv : pyInt (((20 : ℤ) : ℚ) * (1/2)) = 10 := by
      unfold pyInt; rw [if_pos (by norm_num)]; norm_num [Int.floor_eq_iff]
    have hi : pyInt (((20 : ℤ) : ℚ) * (1 - 1/2)) = 10 := by
      unfold pyInt; rw [if_pos (by norm_num)]; norm_num [Int.floor_eq_iff]
    rw [hv, hi]
    decide
  · unfold pyRound
    norm_num [Int.floor_eq_iff]

/-! ### C2: the trial/phase state machine of `update_window` -/

/-- Two applications of an iterated function. -/
lemma iterate_two {α : Type} (f : α → α) (x : α) : f^[2] x = f (f x) := by
  rw [show (2 : ℕ) = 1 + 1 from rfl, Function.iterate_succ_apply, Function.iterate_one]

/-- Three applications of an iterated function. -/
lemma iterate_three {α : Type} (f : α → α) (x : α) : f^[3] x = f (f (f x)) := by
  rw [show (3 : ℕ) = 2 + 1 from rfl, Function.iterate_succ_apply,
    show (2 : ℕ) = 1 + 1 from rfl, Function.iterate_succ_apply, Function.iterate_one]

/-- A single `update_window` transition never decreases `index`. -/
lemma step_index_le (stimuli : List SimonStimulus) (s : TaskState) :
    s.index ≤ (updateWindowStep stimuli s).index := by
  rcases s with ⟨ph, idx, lg, cur⟩
  cases ph with
  | done => exact le_refl _
  | fixation => exact le_refl _
  | cue => exact le_refl _
  | stimulus =>
      simp only [updateWindowStep]
      split <;> simp

/-- A single `update_window` transition preserves `len(log) == index`. -/
lemma step_log_length (stimuli : List SimonStimulus) (s : TaskState)
    (h : s.log.length = s.index) :
    (updateWindowStep stimuli s).log.length = (updateWindowStep stimuli s).index := by
  rcases s with ⟨ph, idx, lg, cur⟩
  cases ph with
  | done => exact h
  | fixation => exact h
  | cue => exact h
  | stimulus =>
      simp only [updateWindowStep]
      split <;> simp_all

/-- The fixation branch only moves the phase on to `cue`. -/
lemma step_fixation (stimuli : List SimonStimulus) (j : ℕ)
    (L : List SimonTrial) (c : SimonTrial) :
    updateWindowStep stimuli ⟨Phase.fixation, j, L, c⟩ = ⟨Phase.cue, j, L, c⟩ := rfl

/-- The cue branch only moves the phase on to `stimulus`. -/
lemma step_cue (stimuli : List SimonStimulus) (j : ℕ)
    (L : List SimonTrial) (c : SimonTrial) :
    updateWindowStep stimuli ⟨Phase.cue, j, L, c⟩ = ⟨Phase.stimulus, j, L, c⟩ := rfl

/-- The stimulus branch when further stimuli remain: log the current trial,
advance the cursor, rebuild `current_trial`, return to fixation. -/
lemma step_stimulus_advance (stimuli : List SimonStimulus) (j : ℕ)
    (hj : j + 1 < stimuli.length) (L : List SimonTrial) (c : SimonTrial) :
    updateWindowStep stimuli ⟨Phase.stimulus, j, L, c⟩
      = ⟨Phase.fixation, j + 1, L ++ [c], mkSimonTrial stimuli[j + 1]⟩ := by
  simp only [updateWindowStep]
  rw [dif_pos hj]

/-- The stimulus branch when the sequence is exhausted: log the current
trial, advance the cursor, enter the terminal phase. -/
lemma step_stimulus_done (stimuli : List SimonStimulus) (j : ℕ)
    (hj : ¬ j + 1 < stimuli.length) (L : List SimonTrial) (c : SimonTrial) :
    updateWindowStep stimuli ⟨Phase.stimulus, j, L, c⟩
      = ⟨Phase.done, j + 1, L ++ [c], c⟩ := by
  simp only [updateWindowStep]
  rw [dif_neg hj]

/-- Shape of the run after `3 * j` transitions, `j` a completed-cycle count
below the sequence length: back at fixation, `j` trials logged in sequence
order, `current_trial` rebuilt from `stimuli[j]`. -/
lemma run_three_mul (stimuli : List SimonStimulus) (h : stimuli ≠ []) (j : ℕ)
    (hj : j < stimuli.length) :
    (updateWindowStep stimuli)^[3 * j] (setupState stimuli h)
      = ⟨Phase.fixation, j, (stimuli.take j).map mkSimonTrial, mkSimonTrial stimuli[j]⟩ := by
  induction j with
  | zero =>
      simp only [Nat.mul_zero, Function.iterate_zero_apply, setupState]
      rw [List.head_eq_getElem_zero h]
      rfl
  | succ j ih =>
      have hjlt : j < stimuli.length := Nat.lt_of_succ_lt hj
      rw [show 3 * (j + 1) = 3 + 3 * j by ring, Function.iterate_add_apply, ih hjlt,
        iterate_three]
      rw [step_fixation, step_cue, step_stimulus_advance stimuli j hj]
      congr 1
      rw [← List.take_concat_get' stimuli j hjlt, List.map_append]
      rfl

/-- After exactly `3 * N` transitions the run is in the terminal phase with
the whole sequence logged. -/
lemma run_done (stimuli : List SimonStimulus) (h : stimuli ≠ []) :
    ((updateWindowStep stimuli)^[3 * stimuli.length] (setupState stimuli h)).phase = Phase.done
  ∧ ((updateWindowStep stimuli)^[3 * stimuli.length] (setupState stimuli h)).index
      = stimuli.length
  ∧ ((updateWindowStep stimuli)^[3 * stimuli.length] (setupState stimuli h)).log
      = stimuli.map mkSimonTrial := by
  obtain ⟨m, hm⟩ : ∃ m, stimuli.length = m + 1 := by
    cases stimuli with
    | nil => exact absurd rfl h
    | cons a l => exact ⟨l.length, rfl⟩
  have hmlt : m < stimuli.length := by omega
  have key := run_three_mul stimuli h m hmlt
  rw [hm, show 3 * (m + 1) = 3 + 3 * m by ring, Function.iterate_add_apply, key,
    iterate_three, step_fixation, step_cue, step_stimulus_done stimuli m (by omega)]
  refine ⟨rfl, by simp [hm], ?_⟩
  show (stimuli.take m).map mkSimonTrial ++ [mkSimonTrial stimuli[m]]
      = stimuli.map mkSimonTrial
  have htake : stimuli.take m ++ [stimuli[m]] = stimuli := by
    rw [List.take_concat_get', ← hm]
    exact List.take_length stimuli
  calc (stimuli.take m).map mkSimonTrial ++ [mkSimonTrial stimuli[m]]
      = (stimuli.take m ++ [stimuli[m]]).map mkSimonTrial := by rw [List.map_append]; rfl
    _ = stimuli.map mkSimonTrial := by rw [htake]

/-- Before the `3 * N`-th transition the run is never in the terminal phase:
each of the `N` cycles passes through fixation, cue and stimulus. -/
lemma run_not_done (stimuli : List SimonStimulus) (h : stimuli ≠ []) (k : ℕ)
    (hk : k < 3 * stimuli.length) :
    ((updateWindowStep stimuli)^[k] (setupState stimuli h)).phase ≠ Phase.done := by
  have hq : k / 3 < stimuli.length := by omega
  have hr : k % 3 = 0 ∨ k % 3 = 1 ∨ k % 3 = 2 := by omega
  have hsplit : k = k % 3 + 3 * (k / 3) := by omega
  have key := run_three_mul stimuli h (k / 3) hq
  rcases hr with hr | hr | hr
  · rw [hsplit, hr, Nat.zero_add, key]
    simp
  · rw [hsplit, hr, Function.iterate_add_apply, key, Function.iterate_one, step_fixation]
    simp
  · rw [hsplit, hr, Function.iterate_add_apply, key, iterate_two, step_fixation, step_cue]
    simp

/-- The demo sequence is nonempty, as `setup` requires. -/
lemma demoStimuli_ne : demoStimuli ≠ [] := by decide

/-- C2 (confirmed): from the initial state over a stimulus sequence of length
`N > 0`, the sequencer needs exactly `N` fixation-to-stimulus cycles (three
phase transitions each) to reach `done`: it is in phase `done` after `3 * N`
transitions and in no earlier state; at that point `len(log) = N`; `index`
never decreases across transitions; and `len(log) = index` at every stable
point. -/
theorem update_window_cycles (stimuli : List SimonStimulus) (h : stimuli ≠ []) :
    ((updateWindowStep stimuli)^[3 * stimuli.length] (setupState stimuli h)).phase = Phase.done
  ∧ (∀ k, k < 3 * stimuli.length →
      ((updateWindowStep stimuli)^[k] (setupState stimuli h)).phase ≠ Phase.done)
  ∧ ((updateWindowStep stimuli)^[3 * stimuli.length] (setupState stimuli h)).log.length
      = stimuli.length
  ∧ (∀ k, ((updateWindowStep stimuli)^[k] (setupState stimuli h)).index
      ≤ ((updateWindowStep stimuli)^[k + 1] (setupState stimuli h)).index)
  ∧ (∀ k, ((updateWindowStep stimuli)^[k] (setupState stimuli h)).log.length
      = ((updateWindowStep stimuli)^[k] (setupState stimuli h)).index) := by
  refine ⟨(run_done stimuli h).1, fun k hk => run_not_done stimuli h k hk, ?_, ?_, ?_⟩
  · rw [(run_done stimuli h).2.2]
    simp
  · intro k
    rw [Function.iterate_succ_apply']
    exact step_index_le stimuli _
  · intro k
    induction k with
    | zero => rfl
    | succ k ih =>
        rw [Function.iterate_succ_apply']
        exact step_log_length stimuli _ ih

/-- C2 witness: the cycle count instantiated on the concrete two-stimulus
sequence `demoStimuli`. -/
theorem update_window_cycles_witness :
    ((updateWindowStep demoStimuli)^[3 * demoStimuli.length]
        (setupState demoStimuli demoStimuli_ne)).phase = Phase.done :=
  (update_window_cycles demoStimuli demoStimuli_ne).1

/-! ### C3: the `stats_qc` quality check -/

/-- C3 (code bug): `stats_qc` cannot return `True` on any input, contradicting
its own docstring ("A good set of aggregated data should have ... a correct
number of trials for each condition ... no NaN should be present").  It first
requires `len(stats) == 3` although the task's `run_stats` always produces the
4 cue conditions, and it then requires 9 non-NaN values although `allvalues`
only ever collects the 6 values of the two `CONDITIONS` entries.  In
particular it returns `False` on `goodStats`, a mapping where every condition
has exactly 20 trials and no NaN — the input on which the claim says it
returns true. -/
theorem stats_qc_never_true :
    statsQC goodStats = Except.ok false
  ∧ ∀ stats, statsQC stats = Except.ok false ∨ statsQC stats = Except.error () := by
  constructor
  · rfl
  · intro stats
    unfold statsQC
    by_cases h3 : stats.length = 3
    · rw [if_pos h3]
      cases hc : stats.lookup "CONGRUENT" with
      | none => simp [hc]
      | some c =>
          cases hi : stats.lookup "INCONGRUENT" with
          | none => simp [hc, hi]
          | some i =>
              simp only [hc, hi]
              by_cases hn : c.1 = 20 ∧ i.1 = 20
              · rw [if_pos hn]
                left
                have hlen : ((pyListVals c ++ pyListVals i).filter PyVal.isNotNan).length ≤ 6 := by
                  calc ((pyListVals c ++ pyListVals i).filter PyVal.isNotNan).length
                      ≤ (pyListVals c ++ pyListVals i).length := List.length_filter_le _ _
                    _ = 6 := by simp [pyListVals]
                rw [if_neg (by omega)]
              · rw [if_neg hn]
                left
                rfl
    · rw [if_neg h3]
      left
      rfl

/-! ### C4, C5: `accept_response` -/

/-- C4 counterexample: in the stimulus phase a second `accept_response` call
overwrites the first recorded response ("f" is replaced by "j"), so the
claimed first-response-wins policy is false. -/
theorem accept_response_twice_cex :
    (acceptResponse demoStimState "f" 1).current.response = some "f"
  ∧ (acceptResponse (acceptResponse demoStimState "f" 1) "j" 2).current.response = some "j"
  ∧ ((some "j" : Option String) ≠ some "f") := by
  refine ⟨rfl, rfl, by decide⟩

/-- C4 (amended): every `accept_response` call made while the phase is
`stimulus` sets the current trial's response and offset, so when it is called
twice in the same stimulus phase the second call overwrites the first: the
last response wins. -/
theorem accept_response_overwrites (s : TaskState) (r1 r2 : String) (t1 t2 : ℚ)
    (h : s.phase = Phase.stimulus) :
    (acceptResponse (acceptResponse s r1 t1) r2 t2).current.response = some r2
  ∧ (acceptResponse (acceptResponse s r1 t1) r2 t2).current.offset = t2 := by
  simp [acceptResponse, h]

/-- C4 witness: the overwrite behaviour on a concrete stimulus-phase state. -/
theorem accept_response_overwrites_witness :
    (acceptResponse (acceptResponse demoStimState "f" 1) "j" 2).current.response = some "j" :=
  (accept_response_overwrites demoStimState "f" "j" 1 2 rfl).1

/-- C5 (confirmed): an `accept_response` call outside the stimulus phase is
silently ignored: no exception is raised (the embedding is a total function)
and the entire task state — current trial's response and offset included —
is returned unchanged. -/
theorem accept_response_out_of_phase (s : TaskState) (r : String) (now : ℚ)
    (h : s.phase ≠ Phase.stimulus) :
    acceptResponse s r now = s := by
  unfold acceptResponse
  rw [if_neg h]

/-- C5 witness: an out-of-phase call on a concrete fixation-phase state. -/
theorem accept_response_out_of_phase_witness :
    acceptResponse demoFixState "f" 1 = demoFixState :=
  accept_response_out_of_phase demoFixState "f" 1 (by decide)

/-! ### C6: `run_stats` -/

/-- C6 (confirmed): `run_stats` never raises (it is a total function of the
log); on an empty log every condition reports the `(0, NaN, NaN)` sentinel;
a condition whose filtered subset is empty keeps the sentinel; and a
condition with a non-empty filtered subset reports the subset size and the
means of per-trial accuracy and response time over the subset. -/
theorem run_stats_spec (log : List SimonTrial) (c : CueCond) :
    (log = [] → runStats log c = (0, none, none))
  ∧ (log.filter (condPred c) = [] → runStats log c = (0, none, none))
  ∧ (log.filter (condPred c) ≠ [] →
      runStats log c =
        ((log.filter (condPred c)).length,
         some (((log.filter (condPred c)).map SimonTrial.accuracy).sum
            / ((log.filter (condPred c)).length : ℚ)),
         some (((log.filter (condPred c)).map SimonTrial.response_time).sum
            / ((log.filter (condPred c)).length : ℚ)))) := by
  refine ⟨?_, ?_, ?_⟩
  · intro h
    subst h
    rfl
  · intro h
    unfold runStats
    rw [h]
    split <;> rfl
  · intro h
    have hd : 0 < (log.filter (condPred c)).length := List.length_pos.2 h
    have hl : 0 < log.length := lt_of_lt_of_le hd (List.length_filter_le _ _)
    simp only [runStats]
    rw [if_pos hl, if_pos hd]

/-! ### C7: per-trial accuracy and response time -/

/-- C7 (confirmed): for every trial whose shape is in the stimulus domain
(the constructor invariant), accuracy is 0 or 1; accuracy is 1 exactly when
the response is non-null and equals `correct_response`; `correct_response` is
the response key obtained by chaining the Simon mapping of the shape with the
response mapping; a trial with no response has accuracy 0; and
`response_time = offset - onset`. -/
theorem trial_accuracy_spec (t : SimonTrial) (h : t.shape ∈ SHAPES) :
    (t.accuracy = 0 ∨ t.accuracy = 1)
  ∧ (t.accuracy = 1 ↔ ∃ r, t.response = some r ∧ t.correct_response = some r)
  ∧ (∃ loc key, simonMapping t.shape = some loc ∧ responseMapping loc = some key
      ∧ t.correct_response = some key)
  ∧ (t.response = none → t.accuracy = 0)
  ∧ t.response_time = t.offset - t.onset := by
  refine ⟨?_, ?_, ?_, ?_, rfl⟩
  · unfold SimonTrial.accuracy
    split
    · right; rfl
    · left; rfl
  · unfold SimonTrial.accuracy
    split
    case isTrue hcond =>
      simp only [Bool.and_eq_true, beq_iff_eq, Option.isSome_iff_exists] at hcond
      obtain ⟨⟨r, hr⟩, heq⟩ := hcond
      exact ⟨fun _ => ⟨r, hr, by rw [← heq, hr]⟩, fun _ => rfl⟩
    case isFalse hcond =>
      constructor
      · intro h01
        exact absurd h01 (by norm_num)
      · rintro ⟨r, hr, hcr⟩
        exact absurd (show (t.response.isSome && (t.response == t.correct_response)) = true by
          rw [hr, hcr]; simp) hcond
  · have h' : t.shape = "CIRCLE" ∨ t.shape = "SQUARE" := by simpa [SHAPES] using h
    rcases h' with h1 | h1
    · exact ⟨"LEFT", "f", by rw [h1]; decide, by decide,
        by unfold SimonTrial.correct_response; rw [h1]; decide⟩
    · exact ⟨"RIGHT", "j", by rw [h1]; decide, by decide,
        by unfold SimonTrial.correct_response; rw [h1]; decide⟩
  · intro hn
    unfold SimonTrial.accuracy
    rw [hn]
    rfl

/-- C7 witness: the accuracy contract instantiated on `demoTrial`. -/
theorem trial_accuracy_spec_witness :
    demoTrial.response_time = demoTrial.offset - demoTrial.onset :=
  (trial_accuracy_spec demoTrial (by decide)).2.2.2.2

/-! ### C8: parameter validation of `generate_stimuli` -/

/-- Truncation of a nonpositive rational is nonpositive. -/
lemma pyInt_nonpos (q : ℚ) (h : q ≤ 0) : pyInt q ≤ 0 := by
  unfold pyInt
  split
  · calc ⌊q⌋ ≤ ⌊(0 : ℚ)⌋ := Int.floor_le_floor h
      _ = 0 := Int.floor_zero
  · exact Int.ceil_le.2 (by exact_mod_cast h)

/-- Python list replication by a nonpositive count is empty. -/
lemma pyRep_nonpos {α : Type} (l : List α) (k : ℤ) (h : k ≤ 0) : pyRep l k = [] := by
  unfold pyRep
  rw [Int.toNat_of_nonpos h]
  rfl

/-- C8 (amended): `generate_stimuli` performs no parameter validation and
raises nothing: for every `n_trials < 0` and `valid_cue_percentage` in
`[0, 1]` it returns normally with the empty sequence (every template
replication count is nonpositive, and Python list replication by a
nonpositive count is empty). -/
theorem generate_stimuli_no_validation (n : ℤ) (hn : n < 0) (p : ℚ)
    (h0 : 0 ≤ p) (h1 : p ≤ 1) :
    generateStimuliE false id n p = some [] := by
  have hq : (n : ℚ) ≤ 0 := by exact_mod_cast hn.le
  have hv : (n : ℚ) * p ≤ 0 := by nlinarith
  have hi : (n : ℚ) * (1 - p) ≤ 0 := by nlinarith
  unfold generateStimuliE generateStimuliList
  simp only [if_neg Bool.false_ne_true, id]
  rw [pyRep_nonpos _ _ (pyInt_nonpos _ hv), pyRep_nonpos _ _ (pyInt_nonpos _ hv),
    pyRep_nonpos _ _ (pyInt_nonpos _ hi), pyRep_nonpos _ _ (pyInt_nonpos _ hi)]
  rfl

/-- C8 witness: no-validation behaviour at `n_trials = -5`, `p = 1/2`. -/
theorem generate_stimuli_no_validation_witness :
    generateStimuliE false id (-5) (1/2) = some [] :=
  generate_stimuli_no_validation (-5) (by norm_num) (1/2) (by norm_num) (by norm_num)

/-- C8 counterexample: at `n_trials = -7`, `valid_cue_percentage = 0.5` the
call returns normally with the empty sequence (`some []`), instead of failing
with `InvalidParameter` as claimed (`none`, the model of an uncaught
exception, is not the result). -/
theorem generate_stimuli_no_validation_cex :
    generateStimuliE false id (-7) (1/2) = some []
  ∧ (some ([] : List SimonStimulus) ≠ (none : Option (List SimonStimulus))) := by
  constructor
  · have hv : ((-7 : ℤ) : ℚ) * (1/2) ≤ 0 := by norm_num
    have hi : ((-7 : ℤ) : ℚ) * (1 - 1/2) ≤ 0 := by norm_num
    unfold generateStimuliE generateStimuliList
    simp only [if_neg Bool.false_ne_true, id]
    rw [pyRep_nonpos _ _ (pyInt_nonpos _ hv), pyRep_nonpos _ _ (pyInt_nonpos _ hv),
      pyRep_nonpos _ _ (pyInt_nonpos _ hi), pyRep_nonpos _ _ (pyInt_nonpos _ hi)]
    rfl
  · simp

/-! ### C9: shuffling is a permutation -/

/-- C9 (confirmed): for every permutation `random.shuffle` may apply, the
sequence generated with `shuffle=True` is a permutation of the sequence
generated with `shuffle=False`; consequently every per-condition count (any
Boolean predicate count) is identical. -/
theorem shuffle_is_permutation
    (shuf : List (String × String × String) → List (String × String × String))
    (hshuf : ∀ l, (shuf l).Perm l) (n : ℤ) (p : ℚ) :
    (generateStimuli true shuf n p).Perm (generateStimuli false shuf n p)
  ∧ ∀ q : SimonStimulus → Bool,
      (generateStimuli true shuf n p).countP q = (generateStimuli false shuf n p).countP q := by
  have hperm : (generateStimuli true shuf n p).Perm (generateStimuli false shuf n p) := by
    unfold generateStimuli
    simp only [if_pos rfl, if_neg Bool.false_ne_true]
    exact List.Perm.map tupStim (hshuf _)
  exact ⟨hperm, fun q => hperm.countP_eq q⟩

/-- C9 witness: instantiated with the reversal permutation at `n_trials = 4`,
`p = 1/2`. -/
theorem shuffle_is_permutation_witness :
    (generateStimuli true List.reverse 4 (1/2)).Perm
      (generateStimuli false List.reverse 4 (1/2)) :=
  (shuffle_is_permutation List.reverse (fun l => List.reverse_perm l) 4 (1/2)).1

/-! ### C10: stimulus construction invariants -/

/-- The `incongruent` property is the Boolean negation of `congruent` (both
compare the same dict lookup against the location). -/
lemma incongruent_not_congruent (st : SimonStimulus) : st.incongruent = !st.congruent := by
  simp [SimonStimulus.incongruent, SimonStimulus.congruent, bne]

/-- The `invalid` property is the Boolean negation of `valid`. -/
lemma invalid_not_valid (st : SimonStimulus) : st.invalid = !st.valid := by
  simp [SimonStimulus.invalid, SimonStimulus.valid, bne]

/-- C10 (confirmed): constructing a stimulus succeeds only when shape,
location and cue are each in their enumerated domain (the cue included);
exactly one of congruent/incongruent and exactly one of valid/invalid holds
(each is the Boolean negation of the other); hence `kind` is always
`"congruent"` or `"incongruent"` and `cue_kind` is always `"valid"` or
`"invalid"`, never the empty string. -/
theorem stimulus_construction_spec (shape location cue : String) (st : SimonStimulus)
    (h : mkSimonStimulus shape location cue = some st) :
    (shape ∈ SHAPES ∧ location ∈ LOCATIONS ∧ cue ∈ LOCATIONS)
  ∧ (st.incongruent = !st.congruent)
  ∧ (st.invalid = !st.valid)
  ∧ (st.kind = "congruent" ∨ st.kind = "incongruent")
  ∧ (st.cue_kind = "valid" ∨ st.cue_kind = "invalid") := by
  by_cases hc : shape ∈ SHAPES ∧ location ∈ LOCATIONS ∧ cue ∈ LOCATIONS
  · refine ⟨hc, incongruent_not_congruent st, invalid_not_valid st, ?_, ?_⟩
    · unfold SimonStimulus.kind
      cases hcg : st.congruent
      · rw [if_neg (by simp [hcg]), if_pos (by simp [incongruent_not_congruent, hcg])]
        right
        rfl
      · rw [if_pos (by simp [hcg])]
        left
        rfl
    · unfold SimonStimulus.cue_kind
      cases hvd : st.valid
      · rw [if_neg (by simp [hvd]), if_pos (by simp [invalid_not_valid, hvd])]
        right
        rfl
      · rw [if_pos (by simp [hvd])]
        left
        rfl
  · unfold mkSimonStimulus at h
    rw [if_neg hc] at h
    exact absurd h (by simp)

/-- C10 witness: the construction invariant on the concrete incongruent-valid
stimulus `(CIRCLE, RIGHT, LEFT)`. -/
theorem stimulus_construction_spec_witness :
    ("CIRCLE" ∈ SHAPES ∧ "RIGHT" ∈ LOCATIONS ∧ "LEFT" ∈ LOCATIONS) :=
  (stimulus_construction_spec "CIRCLE" "RIGHT" "LEFT" ⟨"CIRCLE", "RIGHT", "LEFT"⟩ (by decide)).1

/-! ### The constructor assert succeeds on every generated tuple -/

/-- Membership in a Python list replication. -/
lemma mem_pyRep {α : Type} (l : List α) (k : ℤ) (x : α) (h : x ∈ pyRep l k) : x ∈ l := by
  unfold pyRep at h
  obtain ⟨l', hl', hx⟩ := List.mem_flatten.1 h
  rwa [List.eq_of_mem_replicate hl'] at hx

/-- `mapM` over the checked constructor agrees with `map` over the plain one
when the assert succeeds on every element. -/
lemma mapM_mk_eq_map (l : List (String × String × String))
    (h : ∀ x ∈ l, mkSimonStimulus x.1 x.2.1 x.2.2 = some (tupStim x)) :
    (l.mapM fun x => mkSimonStimulus x.1 x.2.1 x.2.2) = some (l.map tupStim) := by
  induction l with
  | nil => rfl
  | cons a l ih =>
      rw [List.mapM_cons, h a (List.mem_cons_self a l),
        ih fun x hx => h x (List.mem_cons_of_mem a hx)]
      rfl

/-- The comprehension at line 346 raises no `AssertionError`: every tuple the
generator builds comes from one of the four templates, whose entries all pass
the constructor's domain assert, so the checked and the plain embedding of
`generate_stimuli` agree. -/
lemma generateStimuliE_eq_some (n : ℤ) (p : ℚ) :
    generateStimuliE false id n p = some (generateStimuli false id n p) := by
  unfold generateStimuliE generateStimuli
  simp only [if_neg Bool.false_ne_true, id]
  apply mapM_mk_eq_map
  intro x hx
  have hx' : x ∈ congr_valid ∨ x ∈ incongr_valid ∨ x ∈ congr_invalid ∨ x ∈ incongr_invalid := by
    unfold generateStimuliList at hx
    rcases List.mem_append.1 hx with hx | hx
    · rcases List.mem_append.1 hx with hx | hx
      · exact Or.inl (mem_pyRep _ _ _ hx)
      · exact Or.inr (Or.inl (mem_pyRep _ _ _ hx))
    · rcases List.mem_append.1 hx with hx | hx
      · exact Or.inr (Or.inr (Or.inl (mem_pyRep _ _ _ hx)))
      · exact Or.inr (Or.inr (Or.inr (mem_pyRep _ _ _ hx)))
  rcases hx' with hx' | hx' | hx' | hx' <;> fin_cases hx' <;> decide

end SimonDevice
